import Mathlib

/-!
Verification of the metric registry / evaluation-dependency resolver and the
condition-function composition layer of this repository, together with the
peripheral evaluation-parameter store and execution-environment configuration.

The Lean definitions below are shallow embeddings of the Python source:

* `great_expectations/expectations/metrics/metric_provider.py`
  (`MetricProvider.get_evaluation_dependencies`, the partial-function-kind
  taxonomy),
* `great_expectations/expectations/metrics/column_map_metric.py`
  (`MapMetricProvider._get_evaluation_dependencies`,
  `MapMetricProvider._register_metric_functions`, the pandas / SQLAlchemy /
  Spark derived-metric providers and the column partial adapters),
* `great_expectations/data_context/store/store.py` (`EvaluationParameterStore`),
* `great_expectations/execution_environment/execution_environment.py`
  (`BaseExecutionEnvironment.config`, which returns `copy.deepcopy` of the
  stored configuration).

Python dicts are modelled as association lists in insertion order; metric
names as lists of characters; fallible code returns `Except String`.
-/

deriving instance DecidableEq for Except

/-! ## Python dict model (association lists in insertion order) -/

/-- `d[k]` lookup on a Python dict modelled as an insertion-ordered
association list: first (and in a well-formed dict, only) binding wins. -/
def lookupKey {K V : Type} [DecidableEq K] : List (K × V) → K → Option V
  | [], _ => none
  | kv :: rest, k => if kv.1 = k then some kv.2 else lookupKey rest k

/-- `d[k] = v` on a Python dict: replaces the value in place when the key is
present, appends a new binding otherwise (CPython insertion-order semantics). -/
def insertKey {K V : Type} [DecidableEq K] : List (K × V) → K → V → List (K × V)
  | [], k, v => [(k, v)]
  | kv :: rest, k, v => if kv.1 = k then (k, v) :: rest else kv :: insertKey rest k v

/-- `nested_update(d, other)` from `great_expectations/core/util.py`, restricted
to the flat dicts the dependency resolver builds (the values here are metric
configurations, never dicts, so the nested branch is never taken): every
binding of `other` is written into `d` in order. -/
def dictUpdate {K V : Type} [DecidableEq K] (d other : List (K × V)) : List (K × V) :=
  other.foldl (fun acc kv => insertKey acc kv.1 kv.2) d

/-! ## Metric configurations and the dependency resolver -/

/-- `MetricConfiguration` from `validator/validation_graph.py` as the resolver
uses it: a metric name plus domain and value kwargs.  The kwarg values are an
arbitrary type `V`; the resolver copies them around without inspecting them. -/
structure MetricConfiguration (V : Type) where
  metric_name : List Char
  metric_domain_kwargs : List (String × V)
  metric_value_kwargs : List (String × V)
deriving DecidableEq, Repr

/-- The function kinds of `metric_provider.py`: the five partial kinds of
`MetricPartialFunctionTypes` plus the fully materialized `value` kind. -/
inductive MetricFnKind where
  | map_fn
  | map_condition_fn
  | window_fn
  | window_condition_fn
  | aggregate_fn
  | value
deriving DecidableEq, Repr

/-- The string value of each function kind (the `Enum` values in
`metric_provider.py`). -/
def MetricFnKind.chars : MetricFnKind → List Char
  | .map_fn => "map_fn".data
  | .map_condition_fn => "map_condition_fn".data
  | .window_fn => "window_fn".data
  | .window_condition_fn => "window_condition_fn".data
  | .aggregate_fn => "aggregate_fn".data
  | .value => "value".data

/-- `MetricPartialFunctionTypes` of `metric_provider.py`, in declaration
order. -/
def MetricPartialFunctionTypes : List MetricFnKind :=
  [.map_fn, .map_condition_fn, .window_fn, .window_condition_fn, .aggregate_fn]

/-- The five derived-metric suffixes checked (in this order) by
`MapMetricProvider._get_evaluation_dependencies`. -/
def unexpectedCountSuffix : List Char := ".unexpected_count".data

def unexpectedValuesSuffix : List Char := ".unexpected_values".data

def unexpectedIndexListSuffix : List Char := ".unexpected_index_list".data

def unexpectedValueCountsSuffix : List Char := ".unexpected_value_counts".data

def unexpectedRowsSuffix : List Char := ".unexpected_rows".data

def derivedMetricSuffixes : List (List Char) :=
  [unexpectedCountSuffix, unexpectedValuesSuffix, unexpectedIndexListSuffix,
   unexpectedValueCountsSuffix, unexpectedRowsSuffix]

/-- `metric_name[: -len(suffix)]`. -/
def stripSuffix (name suffix : List Char) : List Char :=
  name.take (name.length - suffix.length)

/-- `MapMetricProvider._get_evaluation_dependencies`
(`column_map_metric.py:956-1021`): `base_metric_value_kwargs` drops the
`result_format` key; the metric name is checked against the five derived
suffixes in order, each match returning the single `"unexpected_condition"`
dependency with the suffix stripped; otherwise the empty dict. -/
def mapMetric_get_evaluation_dependencies {V : Type} (metric : MetricConfiguration V) :
    List (String × MetricConfiguration V) :=
  let base_metric_value_kwargs :=
    metric.metric_value_kwargs.filter (fun kv => kv.1 ≠ "result_format")
  if unexpectedCountSuffix <:+ metric.metric_name then
    [("unexpected_condition",
      ⟨stripSuffix metric.metric_name unexpectedCountSuffix,
       metric.metric_domain_kwargs, base_metric_value_kwargs⟩)]
  else if unexpectedValuesSuffix <:+ metric.metric_name then
    [("unexpected_condition",
      ⟨stripSuffix metric.metric_name unexpectedValuesSuffix,
       metric.metric_domain_kwargs, base_metric_value_kwargs⟩)]
  else if unexpectedIndexListSuffix <:+ metric.metric_name then
    [("unexpected_condition",
      ⟨stripSuffix metric.metric_name unexpectedIndexListSuffix,
       metric.metric_domain_kwargs, base_metric_value_kwargs⟩)]
  else if unexpectedValueCountsSuffix <:+ metric.metric_name then
    [("unexpected_condition",
      ⟨stripSuffix metric.metric_name unexpectedValueCountsSuffix,
       metric.metric_domain_kwargs, base_metric_value_kwargs⟩)]
  else if unexpectedRowsSuffix <:+ metric.metric_name then
    [("unexpected_condition",
      ⟨stripSuffix metric.metric_name unexpectedRowsSuffix,
       metric.metric_domain_kwargs, base_metric_value_kwargs⟩)]
  else []

/-- `MetricProvider.get_evaluation_dependencies`
(`metric_provider.py:167-192`) as inherited by `MapMetricProvider`: a
`"metric_partial_fn"` self-dependency is added when the metric NAME ends with
the string value of one of the partial function kinds (the loop overwrites the
same key, so `any` is equivalent), and the child dependencies of
`MapMetricProvider._get_evaluation_dependencies` are merged in with
`nested_update`. -/
def get_evaluation_dependencies {V : Type} (metric : MetricConfiguration V) :
    List (String × MetricConfiguration V) :=
  let dependencies :=
    if ∃ t ∈ MetricPartialFunctionTypes, t.chars <:+ metric.metric_name then
      [("metric_partial_fn", metric)]
    else []
  dictUpdate dependencies (mapMetric_get_evaluation_dependencies metric)

/-! ## Registration hooks

A crucial, easily missed semantic detail: the decorators store Enum MEMBERS
(`inner_func.metric_fn_type = MetricPartialFunctionTypes(partial_fn_type)`,
`inner_func.domain_type = MetricDomainTypes(domain_type)`,
metric_provider.py:86-87), while the registration hooks compare those
attributes against plain string literals.  The Enum classes of
`metric_provider.py` have no `str` mixin, so such a comparison is always
`False` in Python; the embeddings below carry this through explicitly. -/

/-- The three concrete execution engines the registration hooks branch on
(`issubclass` checks against disjoint engine classes; a tagged method whose
engine is not an `ExecutionEngine` subclass raises before any branch, so
only these three occur). -/
inductive ExecEngine where
  | pandas
  | sqlalchemy
  | spark
deriving DecidableEq, Repr

/-- The domain kinds of `MetricDomainTypes` (`metric_provider.py:33-37`). -/
inductive MetricDomainKind where
  | column
  | column_pair
  | table
  | other
deriving DecidableEq, Repr

/-- The string value of each domain kind. -/
def MetricDomainKind.chars : MetricDomainKind → List Char
  | .column => "column".data
  | .column_pair => "column_pair".data
  | .table => "table".data
  | .other => "other".data

/-- A Python value as the registration hooks see one in a comparison or a
`register_metric` argument: a member of one of the plain `Enum` classes of
`metric_provider.py` (`MetricPartialFunctionTypes` / `MetricFunctionTypes`
share their member names here; the source never compares members of the two
classes with each other), a `MetricDomainTypes` member, or a `str`. -/
inductive PyEnumOrStr where
  | fnKindMember (kind : MetricFnKind)
  | domainMember (domain : MetricDomainKind)
  | str (s : List Char)
deriving DecidableEq, Repr

/-- Python `==` on such values: a plain-Enum member (no `str` mixin) equals
only the same member — against a `str` the comparison falls back to object
identity and is `False`; two strings compare by content.  Python `x in list`
applies this `==` to each element. -/
def pyEq : PyEnumOrStr → PyEnumOrStr → Bool
  | .fnKindMember k1, .fnKindMember k2 => k1 = k2
  | .domainMember d1, .domainMember d2 => d1 = d2
  | .str s1, .str s2 => s1 = s2
  | _, _ => false

/-- A method of a provider class tagged by the `metric_partial_fn` decorator:
the Enum members it stores as function kind and domain type, and its engine
(`metric_provider.py:72-91`). -/
structure CandidateMetricFn where
  metric_fn_type : MetricFnKind
  metric_engine : ExecEngine
  domain_type : MetricDomainKind
deriving DecidableEq, Repr

/-- A `MapMetricProvider` subclass as `_register_metric_functions` inspects
it: the two optional base-metric-name class attributes and the tagged methods
of `cls.__dict__`, in declaration order. -/
structure MapMetricCls where
  condition_metric_name : Option (List Char)
  function_metric_name : Option (List Char)
  methods : List CandidateMetricFn
deriving DecidableEq, Repr

/-- One `register_metric(...)` call: the registered name, engine and the
`metric_fn_type` argument exactly as the source passes it — a string literal
at most call sites of `MapMetricProvider._register_metric_functions`, but
the tagged Enum member at `column_map_metric.py:884` and throughout
`MetricProvider._register_metric_functions`.  (The key whitelists and the
provider callable are not inspected by any claim and are omitted.) -/
structure Registration where
  metric_name : List Char
  execution_engine : ExecEngine
  metric_fn_type : PyEnumOrStr
deriving DecidableEq, Repr

/-- The `register_metric` calls of the condition branch
(`column_map_metric.py:760-933`), per engine.  The inner guards are Python
`==` against string literals while `metric_fn_type` and `domain_type` hold
Enum members, so the Spark `.unexpected_count` sub-branches (lines 886, 896)
and every `domain_type == "column"` guard (lines 800, 848, 906) never fire:
even if the enclosing condition branch were entered, only the
non-column-guarded registrations would be issued. -/
def registrationsForConditionFn (metric_name : List Char) (metric_fn_type : MetricFnKind)
    (engine : ExecEngine) (domain_type : MetricDomainKind) : List Registration :=
  match engine with
  | .pandas =>
    [⟨metric_name, .pandas, .str "map_condition_fn".data⟩,
     ⟨metric_name ++ unexpectedCountSuffix, .pandas, .str "value".data⟩,
     ⟨metric_name ++ unexpectedIndexListSuffix, .pandas, .str "value".data⟩] ++
    (if pyEq (.domainMember domain_type) (.str "column".data) then
      [⟨metric_name ++ unexpectedValuesSuffix, .pandas, .str "value".data⟩,
       ⟨metric_name ++ unexpectedValueCountsSuffix, .pandas, .str "value".data⟩,
       ⟨metric_name ++ unexpectedRowsSuffix, .pandas, .str "value".data⟩]
     else [])
  | .sqlalchemy =>
    [⟨metric_name, .sqlalchemy, .str "map_condition_fn".data⟩,
     ⟨metric_name ++ unexpectedCountSuffix, .sqlalchemy, .str "aggregate_fn".data⟩] ++
    (if pyEq (.domainMember domain_type) (.str "column".data) then
      [⟨metric_name ++ unexpectedValuesSuffix, .sqlalchemy, .str "value".data⟩,
       ⟨metric_name ++ unexpectedValueCountsSuffix, .sqlalchemy, .str "value".data⟩,
       ⟨metric_name ++ unexpectedRowsSuffix, .sqlalchemy, .str "value".data⟩]
     else [])
  | .spark =>
    [⟨metric_name, .spark, .fnKindMember metric_fn_type⟩] ++
    (if pyEq (.fnKindMember metric_fn_type) (.str "map_condition_fn".data) then
      [⟨metric_name ++ unexpectedCountSuffix, .spark, .str "aggregate_fn".data⟩]
     else if pyEq (.fnKindMember metric_fn_type) (.str "window_condition_fn".data) then
      [⟨metric_name ++ unexpectedCountSuffix, .spark, .str "value".data⟩]
     else []) ++
    (if pyEq (.domainMember domain_type) (.str "column".data) then
      [⟨metric_name ++ unexpectedValuesSuffix, .spark, .str "value".data⟩,
       ⟨metric_name ++ unexpectedValueCountsSuffix, .spark, .str "value".data⟩,
       ⟨metric_name ++ unexpectedRowsSuffix, .spark, .str "value".data⟩]
     else [])

/-- The loop body of `MapMetricProvider._register_metric_functions`
(`column_map_metric.py:743-954`) over the tagged methods, in order.  The two
branch guards are
`if metric_fn_type in ["window_condition_fn", "map_condition_fn"]:`
(line 754) and `elif metric_fn_type == "map_fn":` (line 934), comparing the
Enum member the decorator stored against string literals — always false —
so every tagged method falls through both branches: the loop registers
nothing, and the `ValueError` raises for a missing base-name attribute
(lines 755-758, 935-938) are unreachable. -/
def registerMetricFunctionsAux (cls : MapMetricCls) :
    List CandidateMetricFn → Except String (List Registration)
  | [] => .ok []
  | m :: rest =>
    if pyEq (.fnKindMember m.metric_fn_type) (.str "window_condition_fn".data) ||
       pyEq (.fnKindMember m.metric_fn_type) (.str "map_condition_fn".data) then
      match cls.condition_metric_name with
      | none =>
        .error "A MapMetricProvider must have a metric_condition_name to have a decorated column_condition_partial method."
      | some metric_name =>
        (registerMetricFunctionsAux cls rest).map
          (registrationsForConditionFn metric_name m.metric_fn_type m.metric_engine
            m.domain_type ++ ·)
    else if pyEq (.fnKindMember m.metric_fn_type) (.str "map_fn".data) then
      match cls.function_metric_name with
      | none =>
        .error "A MapMetricProvider must have a function_metric_name to have a decorated column_function_partial method."
      | some metric_name =>
        (registerMetricFunctionsAux cls rest).map
          ([⟨metric_name, m.metric_engine, .str "map_fn".data⟩] ++ ·)
    else registerMetricFunctionsAux cls rest

/-- `MapMetricProvider._register_metric_functions`
(`column_map_metric.py:736-954`): when the class has NEITHER
`function_metric_name` NOR `condition_metric_name` the hook returns at once
(registering nothing and raising nothing); otherwise every tagged method is
processed by the loop above — which, its guards being dead, also registers
nothing and raises nothing. -/
def MapMetricProvider_register_metric_functions (cls : MapMetricCls) :
    Except String (List Registration) :=
  if cls.function_metric_name.isNone ∧ cls.condition_metric_name.isNone then .ok []
  else registerMetricFunctionsAux cls cls.methods

/-- A method as the base `MetricProvider._register_metric_functions` hook
sees one: its engine, the Enum member the decorator stored as
`metric_fn_type`, and `metric_definition_kwargs.get("metric_name_suffix",
"")`.  (Both decorators always set `metric_fn_type`, and neither sets a
per-method `metric_name`, so the class attribute supplies the name;
renderer-tagged attributes are out of scope.) -/
structure ValueMetricFn where
  metric_engine : ExecEngine
  metric_fn_type : MetricFnKind
  metric_name_suffix : List Char
deriving DecidableEq, Repr

/-- A plain `MetricProvider` class as the base hook inspects it:
`getattr(cls, "metric_name", None)` and the tagged methods in order. -/
structure MetricProviderCls where
  metric_name : Option (List Char)
  methods : List ValueMetricFn
deriving DecidableEq, Repr

/-- `MetricProvider._register_metric_functions`
(`metric_provider.py:100-161`): a method is skipped when no metric name is
defined (lines 121-123); otherwise the guard `if metric_fn_type == "value":`
(line 133) compares the stored Enum MEMBER to a string and is always false,
so EVERY tagged method takes the else branch (lines 143-161) and is
registered twice — under `declared_metric_name + "." + metric_fn_type.value`
with the provider function, and under the bare `declared_metric_name` with
provider `None` — both times with the member itself as the declared function
kind. -/
def MetricProvider_register_metric_functions (cls : MetricProviderCls) :
    List Registration :=
  cls.methods.flatMap (fun metric_fn =>
    match cls.metric_name with
    | none => []
    | some metric_name =>
      let declared_metric_name := metric_name ++ metric_fn.metric_name_suffix
      if pyEq (.fnKindMember metric_fn.metric_fn_type) (.str "value".data) then
        [⟨declared_metric_name, metric_fn.metric_engine,
          .fnKindMember metric_fn.metric_fn_type⟩]
      else
        [⟨declared_metric_name ++ ".".data ++ MetricFnKind.chars metric_fn.metric_fn_type,
          metric_fn.metric_engine, .fnKindMember metric_fn.metric_fn_type⟩,
         ⟨declared_metric_name, metric_fn.metric_engine,
          .fnKindMember metric_fn.metric_fn_type⟩])

/-! ## SQLAlchemy and Spark derived-metric providers -/

/-- Domain kwargs as the composition layer passes them around: a dict of
string-valued selection parameters (`batch_id`, `table`, `column`,
`row_condition`, ...). -/
abbrev DomainKwargs : Type := List (String × String)

/-- A row of the backend-native table: column name to integer value. -/
abbrev TableRow : Type := List (String × Int)

/-- `metric_value_kwargs["result_format"]` as the derived-metric providers
read it: the `result_format` string and `partial_unexpected_count`. -/
structure ResultFormat where
  result_format : String
  partial_unexpected_count : Nat
deriving DecidableEq, Repr

/-- The contract of `get_compute_domain` for the SQL and Spark engines: domain
kwargs map to the backend data (a list of rows), the compute domain kwargs and
the accessor domain kwargs. -/
structure EngineModel where
  get_compute_domain : DomainKwargs → List TableRow × DomainKwargs × DomainKwargs

/-- The `"unexpected_condition"` dependency value on the SQL and Spark
backends: a boolean condition over rows plus the compute domain kwargs
recorded when the condition was derived. -/
def UnexpectedCondition : Type := (TableRow → Bool) × DomainKwargs

/-- Value histogram in first-occurrence order: the distinct values of `l`
paired with their occurrence counts. -/
def valueCountsList {α : Type} [DecidableEq α] (l : List α) : List (α × Nat) :=
  (l.foldl (fun acc a => if a ∈ acc then acc else acc ++ [a]) []).map
    (fun a => (a, (l.filter (fun x => x = a)).length))

/-- `_sqlalchemy_column_map_values` (`column_map_metric.py:515-550`): the
compute domain is re-resolved from the metric's own domain kwargs, the
recorded condition domain kwargs are asserted equal to it, and the query
`SELECT accessor_column FROM selectable WHERE unexpected_condition [LIMIT n]`
is executed (modelled as filter / project / take over the model table). -/
def sqlalchemy_column_map_values (execution_engine : EngineModel)
    (metric_domain_kwargs : DomainKwargs) (result_format : ResultFormat)
    (unexpected : UnexpectedCondition) : Except String (List (Option Int)) :=
  let (selectable, compute_domain_kwargs, accessor_domain_kwargs) :=
    execution_engine.get_compute_domain metric_domain_kwargs
  let (unexpected_condition, fn_domain_kwargs) := unexpected
  if fn_domain_kwargs = compute_domain_kwargs then
    let column := lookupKey accessor_domain_kwargs "column"
    let rows := selectable.filter unexpected_condition
    let rows :=
      if result_format.result_format ≠ "COMPLETE" then
        rows.take result_format.partial_unexpected_count
      else rows
    .ok (rows.map (fun row => column.bind (fun c => lookupKey row c)))
  else .error "compute domain should be equivalent to the function domain"

/-- `_sqlalchemy_column_map_value_counts` (`column_map_metric.py:553-581`):
same assertion, then `SELECT col, COUNT(col) ... WHERE condition GROUP BY
col`. -/
def sqlalchemy_column_map_value_counts (execution_engine : EngineModel)
    (metric_domain_kwargs : DomainKwargs)
    (unexpected : UnexpectedCondition) : Except String (List (Option Int × Nat)) :=
  let (selectable, compute_domain_kwargs, accessor_domain_kwargs) :=
    execution_engine.get_compute_domain metric_domain_kwargs
  let (unexpected_condition, fn_domain_kwargs) := unexpected
  if fn_domain_kwargs = compute_domain_kwargs then
    let column := lookupKey accessor_domain_kwargs "column"
    .ok (valueCountsList ((selectable.filter unexpected_condition).map
      (fun row => column.bind (fun c => lookupKey row c))))
  else .error "compute domain should be equivalent to the function domain"

/-- `_sqlalchemy_column_map_rows` (`column_map_metric.py:584-612`): same
assertion, then `SELECT * ... WHERE condition [LIMIT n]`. -/
def sqlalchemy_column_map_rows (execution_engine : EngineModel)
    (metric_domain_kwargs : DomainKwargs) (result_format : ResultFormat)
    (unexpected : UnexpectedCondition) : Except String (List TableRow) :=
  let (selectable, compute_domain_kwargs, _) :=
    execution_engine.get_compute_domain metric_domain_kwargs
  let (unexpected_condition, fn_domain_kwargs) := unexpected
  if fn_domain_kwargs = compute_domain_kwargs then
    let rows := selectable.filter unexpected_condition
    .ok (if result_format.result_format ≠ "COMPLETE" then
          rows.take result_format.partial_unexpected_count
         else rows)
  else .error "compute domain should be equivalent to the function domain"

/-- `_spark_column_map_values` (`column_map_metric.py:645-669`): the data is
resolved from the CONDITION'S recorded `fn_domain_kwargs` (not from the
metric's own domain kwargs), there is no assertion, the condition is
materialized as a temporary column used as a row filter, the column named by
`metric_domain_kwargs["column"]` is projected and the result limited unless
COMPLETE. -/
def spark_column_map_values (execution_engine : EngineModel)
    (metric_domain_kwargs : DomainKwargs) (result_format : ResultFormat)
    (unexpected : UnexpectedCondition) : List (Option Int) :=
  let (condition, fn_domain_kwargs) := unexpected
  let (data, _, _) := execution_engine.get_compute_domain fn_domain_kwargs
  let column_name := lookupKey metric_domain_kwargs "column"
  let filtered := data.filter condition
  let rows :=
    if result_format.result_format = "COMPLETE" then filtered
    else filtered.take result_format.partial_unexpected_count
  rows.map (fun row => column_name.bind (fun c => lookupKey row c))

/-- `_spark_column_map_value_counts` (`column_map_metric.py:672-694`): data
from the condition's recorded domain kwargs, no assertion; group the filtered
rows by the accessor column and count, truncating the collected rows unless
COMPLETE. -/
def spark_column_map_value_counts (execution_engine : EngineModel)
    (result_format : ResultFormat)
    (unexpected : UnexpectedCondition) : List (Option Int × Nat) :=
  let (condition, fn_domain_kwargs) := unexpected
  let (data, _, accessor_domain_kwargs) := execution_engine.get_compute_domain fn_domain_kwargs
  let column_name := lookupKey accessor_domain_kwargs "column"
  let filtered := data.filter condition
  let value_counts := valueCountsList (filtered.map
    (fun row => column_name.bind (fun c => lookupKey row c)))
  if result_format.result_format = "COMPLETE" then value_counts
  else value_counts.take result_format.partial_unexpected_count

/-- `_spark_column_map_rows` (`column_map_metric.py:697-716`): data from the
condition's recorded domain kwargs, no assertion; the filtered rows, limited
unless COMPLETE. -/
def spark_column_map_rows (execution_engine : EngineModel)
    (result_format : ResultFormat)
    (unexpected : UnexpectedCondition) : List TableRow :=
  let (condition, fn_domain_kwargs) := unexpected
  let (data, _, _) := execution_engine.get_compute_domain fn_domain_kwargs
  let filtered := data.filter condition
  if result_format.result_format = "COMPLETE" then filtered
  else filtered.take result_format.partial_unexpected_count

/-! ## Pandas composition layer and derived-metric providers -/

/-- A pandas Series of `α` values: (index, value) pairs in row order. -/
abbrev PdSeries (α : Type) : Type := List (Nat × α)

/-- Boolean-mask lookup used by pandas boolean indexing `data[mask == True]`:
the mask entry at the given index, `False` when absent. -/
def maskAt (mask : PdSeries Bool) (i : Nat) : Bool :=
  (lookupKey mask i).getD false

/-- `data[mask == True]`: keep the entries of `s` whose index the boolean
series marks `True`. -/
def maskSelect {α : Type} (s : PdSeries α) (mask : PdSeries Bool) : PdSeries α :=
  s.filter (fun p => maskAt mask p.1)

/-- `df[df[column].notnull()]` on a single column: drop the null entries. -/
def notnullFilter (s : PdSeries (Option Int)) : PdSeries (Option Int) :=
  s.filter (fun p => p.2.isSome)

/-- The effective `filter_column_isnull` flag:
`kwargs.get("filter_column_isnull", getattr(cls, "filter_column_isnull",
shape_default))` — the decorator/call kwargs first, then the class attribute,
then the authoring-shape default. -/
def resolveFilterColumnIsnull (call_kwargs cls_attr : Option Bool)
    (shape_default : Bool) : Bool :=
  call_kwargs.getD (cls_attr.getD shape_default)

/-- The pandas `inner_func` built by `column_condition_partial`
(`column_map_metric.py:195-225`): shape default `True` for
`filter_column_isnull` (line 207), null rows dropped before the author's
function runs, and the author's meets-expectation series negated entrywise
(`~meets_expectation_series`). -/
def pandas_column_condition_inner (call_kwargs cls_attr : Option Bool)
    (metric_fn : Option Int → Bool) (column : PdSeries (Option Int)) :
    PdSeries Bool :=
  let filter_column_isnull := resolveFilterColumnIsnull call_kwargs cls_attr true
  let df := if filter_column_isnull then notnullFilter column else column
  (df.map (fun p => (p.1, metric_fn p.2))).map (fun p => (p.1, ! p.2))

/-- The pandas `inner_func` built by `column_function_partial`
(`column_map_metric.py:40-69`): shape default `False` for
`filter_column_isnull` (line 52), no negation. -/
def pandas_column_function_inner {α : Type} (call_kwargs cls_attr : Option Bool)
    (metric_fn : Option Int → α) (column : PdSeries (Option Int)) :
    PdSeries α :=
  let filter_column_isnull := resolveFilterColumnIsnull call_kwargs cls_attr false
  let df := if filter_column_isnull then notnullFilter column else column
  df.map (fun p => (p.1, metric_fn p.2))

/-- `_pandas_map_unexpected_count` (`column_map_metric.py:339-348`):
`np.count_nonzero` over the unexpected-condition series. -/
def pandas_map_unexpected_count (unexpected_condition : PdSeries Bool) : Nat :=
  (unexpected_condition.filter (fun p => p.2)).length

/-- `_pandas_column_map_values` (`column_map_metric.py:351-397`): the column
re-derived from the condition's compute domain kwargs (here passed as the
column series, with the effective `filter_column_isnull` flag), masked by the
unexpected-condition series; `list(...)` of it in row order, `[:
partial_unexpected_count]` unless the result format is COMPLETE. -/
def pandas_column_map_values (data : PdSeries (Option Int))
    (filter_column_isnull : Bool) (result_format : ResultFormat)
    (boolean_map_unexpected_values : PdSeries Bool) : List (Option Int) :=
  let data := if filter_column_isnull then notnullFilter data else data
  if result_format.result_format = "COMPLETE" then
    (maskSelect data boolean_map_unexpected_values).map (fun p => p.2)
  else
    ((maskSelect data boolean_map_unexpected_values).take
      result_format.partial_unexpected_count).map (fun p => p.2)

/-- Spec-side description of `unexpected_values` (from the spec's words, for
comparison with the embedded provider): the values at the positions where the
condition is true, in row order. -/
def unexpectedValuesSpec {α : Type} (vals : List α) (bools : List Bool) : List α :=
  ((vals.zip bools).filter (fun p => p.2)).map (fun p => p.1)

/-- A pandas column value for the value-counts provider: an integer, a list
(unhashable) or a tuple (hashable). -/
inductive PdVal where
  | pInt (n : Int)
  | pList (l : List Int)
  | pTuple (l : List Int)
deriving DecidableEq, Repr

/-- Lists are the unhashable values of this model. -/
def PdVal.isUnhashable : PdVal → Bool
  | .pList _ => true
  | _ => false

/-- `Series.value_counts()`: raises when the data holds an unhashable value
(grouping needs a hash), else the histogram.  (In this model the grouping
failure is the exception type the caller catches.) -/
def seriesValueCountsE (l : List PdVal) : Except String (List (PdVal × Nat)) :=
  if l.any PdVal.isUnhashable then .error "ValueError: unhashable type"
  else .ok (valueCountsList l)

/-- `Series.apply(tuple)`: `tuple(x)` succeeds on lists and tuples, raises
`TypeError` on an integer (not iterable). -/
def seriesApplyTupleE : List PdVal → Except String (List PdVal)
  | [] => .ok []
  | .pInt _ :: _ => .error "TypeError: int object is not iterable"
  | .pList l :: rest => (seriesApplyTupleE rest).map (.pTuple l :: ·)
  | .pTuple l :: rest => (seriesApplyTupleE rest).map (.pTuple l :: ·)

/-- The result type of `_pandas_column_map_value_counts`: the histogram
(COMPLETE branch) or the scalar count that `value_counts[n]` indexing would
produce (non-COMPLETE branch). -/
inductive ValueCountsResult where
  | hist (h : List (PdVal × Nat))
  | scalar (n : Nat)
deriving DecidableEq, Repr

/-- `_pandas_column_map_value_counts` (`column_map_metric.py:430-469`).
The `try`/`except ValueError` ladder: direct `value_counts()`, on failure
`apply(tuple).value_counts()` (a `TypeError` from `apply(tuple)` is NOT
caught), on a second `ValueError` the series stays `None`.  Then
`if not value_counts:` — when `value_counts` is `None` this raises
`MetricError("Unable to compute value counts")`, but when `value_counts` is a
pandas Series, `bool(Series)` itself raises
`ValueError: The truth value of a Series is ambiguous` (pandas
`NDFrame.__bool__` raises unconditionally), so the return statements at lines
466-469 are unreachable. -/
def pandas_column_map_value_counts (data : PdSeries PdVal)
    (result_format : ResultFormat)
    (boolean_mapped_unexpected_values : PdSeries Bool) :
    Except String ValueCountsResult :=
  let selected := (maskSelect data boolean_mapped_unexpected_values).map (fun p => p.2)
  let step : Except String (Option (List (PdVal × Nat))) :=
    match seriesValueCountsE selected with
    | .ok vc => .ok (some vc)
    | .error _ =>
      match seriesApplyTupleE selected with
      | .error e => .error e
      | .ok tupled =>
        match seriesValueCountsE tupled with
        | .ok vc => .ok (some vc)
        | .error _ => .ok none
  match step with
  | .error e => .error e
  | .ok none => .error "MetricError: Unable to compute value counts"
  | .ok (some _) =>
    .error "ValueError: The truth value of a Series is ambiguous. Use a.empty, a.bool(), a.item(), a.any() or a.all()."

/-- What the claim (and lines 466-469, were they reachable) say
`_pandas_column_map_value_counts` returns on a successful grouping with
result format COMPLETE: the histogram itself. -/
def pandasValueCountsClaimed (data : PdSeries PdVal)
    (boolean_mapped_unexpected_values : PdSeries Bool) : ValueCountsResult :=
  .hist (valueCountsList
    ((maskSelect data boolean_mapped_unexpected_values).map (fun p => p.2)))

/-- A column label of a pandas DataFrame: a string or an integer. -/
inductive PdLabel where
  | strL (s : String)
  | intL (n : Nat)
deriving DecidableEq, Repr

/-- A pandas DataFrame: column labels, and rows of values (one per column)
keyed by the row index. -/
structure PandasDF where
  columns : List PdLabel
  rows : List (Nat × List (Option Int))
deriving DecidableEq, Repr

/-- `df[label]` with a scalar key: column selection; `KeyError` when no
column carries that label. -/
def PandasDF.getCol (df : PandasDF) (k : PdLabel) :
    Except String (PdSeries (Option Int)) :=
  match df.columns.findIdx? (fun c => c = k) with
  | some i => .ok (df.rows.map (fun r => (r.1, (r.2.get? i).join)))
  | none => .error "KeyError"

/-- `df[mask == True]` on a DataFrame: keep the rows whose index the mask
marks `True`. -/
def PandasDF.maskRows (df : PandasDF) (mask : PdSeries Bool) : PandasDF :=
  ⟨df.columns, df.rows.filter (fun r => maskAt mask r.1)⟩

/-- The result of `_pandas_column_map_rows`: a DataFrame (COMPLETE branch) or
the Series that `df[...][partial_unexpected_count]` column selection yields. -/
inductive PandasRowsResult where
  | frame (df : PandasDF)
  | series (s : PdSeries (Option Int))
deriving DecidableEq, Repr

/-- `_pandas_column_map_rows` (`column_map_metric.py:472-496`): with COMPLETE
it returns `df[mask == True]`; otherwise it evaluates
`df[mask == True][result_format["partial_unexpected_count"]]` — a scalar
`__getitem__`, i.e. COLUMN selection by the integer label
`partial_unexpected_count` (not a `[:n]` row slice), which is a `KeyError`
whenever no column carries that label. -/
def pandas_column_map_rows (df : PandasDF) (result_format : ResultFormat)
    (boolean_mapped_unexpected_values : PdSeries Bool) :
    Except String PandasRowsResult :=
  let selected := df.maskRows boolean_mapped_unexpected_values
  if result_format.result_format = "COMPLETE" then .ok (.frame selected)
  else (selected.getCol (.intL result_format.partial_unexpected_count)).map .series

/-- What the claim says the non-COMPLETE branch of `_pandas_column_map_rows`
returns: the selected rows truncated to the first `partial_unexpected_count`
rows in row order. -/
def pandasRowsClaimed (df : PandasDF) (result_format : ResultFormat)
    (boolean_mapped_unexpected_values : PdSeries Bool) : PandasRowsResult :=
  let selected := df.maskRows boolean_mapped_unexpected_values
  if result_format.result_format = "COMPLETE" then .frame selected
  else .frame ⟨selected.columns, selected.rows.take result_format.partial_unexpected_count⟩

/-- A concrete engine for exercising the providers: a two-row table with one
column `a`, compute domain kwargs recording a row condition, accessor kwargs
naming the column. -/
def mismatchEngine : EngineModel :=
  ⟨fun _ => ([[("a", (1 : Int))], [("a", 5)]], [("row_condition", "rc")], [("column", "a")])⟩

/-- An unexpected-condition dependency whose recorded compute domain kwargs
(`[]`) deliberately disagree with what `mismatchEngine` re-resolves. -/
def mismatchCondition : UnexpectedCondition :=
  (fun row => (lookupKey row "a").getD 0 > 2, [])

/-! ## EvaluationParameterStore -/

/-- `EvaluationParameterStore` (`data_context/store/store.py:268-284`): a
plain dict wrapper ("You want to be a dict. You get to be a dict."). -/
structure EvaluationParameterStore (K V : Type) where
  store : List (K × V)
deriving DecidableEq, Repr

/-- `EvaluationParameterStore()`: `self.store = {}`. -/
def EvaluationParameterStore.init (K V : Type) : EvaluationParameterStore K V := ⟨[]⟩

/-- `get(key)`: `self.store[key]`, a `KeyError` when absent. -/
def EvaluationParameterStore.get {K V : Type} [DecidableEq K]
    (s : EvaluationParameterStore K V) (k : K) : Except String V :=
  match lookupKey s.store k with
  | some v => .ok v
  | none => .error "KeyError"

/-- `set(key, value)`: `self.store[key] = value`. -/
def EvaluationParameterStore.set {K V : Type} [DecidableEq K]
    (s : EvaluationParameterStore K V) (k : K) (v : V) : EvaluationParameterStore K V :=
  ⟨insertKey s.store k v⟩

/-- `has_key(key)`: `key in self.store`. -/
def EvaluationParameterStore.has_key {K V : Type} [DecidableEq K]
    (s : EvaluationParameterStore K V) (k : K) : Bool :=
  (lookupKey s.store k).isSome

/-- `list_keys()`: `list(self.store.keys())`. -/
def EvaluationParameterStore.list_keys {K V : Type}
    (s : EvaluationParameterStore K V) : List K :=
  s.store.map (fun kv => kv.1)

/-! ## `copy.deepcopy` and the `config` property of `BaseExecutionEnvironment`

The configuration is a Python object graph; to state what "deep copy" means
we model the graph explicitly: a heap maps addresses to nodes, a node is a
primitive or a dict of (key, child address) entries.  Mutation of an object
is a heap write at its address. -/

/-- A Python object: an (immutable) primitive or a dict node whose entries
point to child addresses. -/
inductive PyNode where
  | prim (s : String)
  | dict (entries : List (String × Nat))
deriving DecidableEq, Repr

/-- The child addresses a node holds. -/
def nodeChildren : PyNode → List Nat
  | .prim _ => []
  | .dict es => es.map (fun kv => kv.2)

/-- The heap: newest binding first; an address may be rebound by mutation. -/
abbrev Heap : Type := List (Nat × PyNode)

def heapGet : Heap → Nat → Option PyNode
  | [], _ => none
  | (b, node) :: rest, a => if a = b then some node else heapGet rest a

/-- Bind (or mutate) address `a`. -/
def heapSet (h : Heap) (a : Nat) (node : PyNode) : Heap := (a, node) :: h

/-- Every address bound in `h`, and every child address a node of `h` holds,
is below `n` (so `n` is a fresh allocation frontier). -/
def heapBounded (h : Heap) (n : Nat) : Prop :=
  ∀ p ∈ h, p.1 < n ∧ ∀ c ∈ nodeChildren p.2, c < n

instance (h : Heap) (n : Nat) : Decidable (heapBounded h n) :=
  inferInstanceAs (Decidable (∀ p ∈ h, _ ∧ _))

/-- Copy each entry of a dict in order with the one-level copy function
`copy` (threaded heap and allocation counter), returning the rewritten
entry list. -/
def deepcopyEntriesWith (copy : Heap → Nat → Nat → Option (Heap × Nat × Nat)) :
    Heap → Nat → List (String × Nat) → Option (Heap × Nat × List (String × Nat))
  | h, fresh, [] => some (h, fresh, [])
  | h, fresh, (k, a) :: rest =>
    match copy h fresh a with
    | none => none
    | some (h1, fresh1, a1) =>
      match deepcopyEntriesWith copy h1 fresh1 rest with
      | none => none
      | some (h2, fresh2, rest2) => some (h2, fresh2, (k, a1) :: rest2)

/-- `copy.deepcopy` on the object at address `a`: recursively copy the object
graph into freshly allocated addresses (fuel bounds the recursion depth; the
configuration graphs deep-copied by `config` are finite trees, so enough fuel
always exists).  Returns the extended heap, the new allocation frontier and
the address of the copy. -/
def deepcopyAddr : Nat → Heap → Nat → Nat → Option (Heap × Nat × Nat)
  | 0, _, _, _ => none
  | fuel + 1, h, fresh, a =>
    match heapGet h a with
    | none => none
    | some (.prim s) => some (heapSet h fresh (.prim s), fresh + 1, fresh)
    | some (.dict entries) =>
      match deepcopyEntriesWith (fun h2 f2 a2 => deepcopyAddr fuel h2 f2 a2) h fresh entries with
      | none => none
      | some (h2, fresh2, entries2) =>
        some (heapSet h2 fresh2 (.dict entries2), fresh2 + 1, fresh2)

/-- The addresses reachable from `a` within `fuel` dereferences (always
including `a` itself). -/
def reachList (h : Heap) : Nat → Nat → List Nat
  | 0, a => [a]
  | fuel + 1, a =>
    a :: (match heapGet h a with
          | some (.dict es) => es.flatMap (fun kv => reachList h fuel kv.2)
          | _ => [])

/-- `BaseExecutionEnvironment` as the `config` property sees it: the address
of `self._execution_environment_config`. -/
structure BaseExecutionEnvironment where
  execution_environment_config : Nat
deriving DecidableEq, Repr

/-- The `config` property
(`execution_environment/execution_environment.py:303-305`):
`copy.deepcopy(self._execution_environment_config)`. -/
def BaseExecutionEnvironment.config (env : BaseExecutionEnvironment)
    (h : Heap) (fuel fresh : Nat) : Option (Heap × Nat × Nat) :=
  deepcopyAddr fuel h fresh env.execution_environment_config

/-- All nodes at addresses at or above `n` (the nodes a copy starting at
frontier `n` allocated) hold only child addresses at or above `n`: the copied
object graph never points back into the pre-existing heap. -/
def freshClosed (h : Heap) (n : Nat) : Prop :=
  ∀ a node, n ≤ a → heapGet h a = some node → ∀ c ∈ nodeChildren node, n ≤ c

/-- What one successful `deepcopyAddr` call guarantees: the frontier and the
returned address move forward, addresses below the old frontier read as
before, the result heap is bounded by the new frontier, and the allocated
nodes are closed above the old frontier. -/
def CopyCallOK (h : Heap) (fresh : Nat) (h' : Heap) (fresh' r : Nat) : Prop :=
  fresh ≤ fresh' ∧ fresh ≤ r ∧ r < fresh' ∧
  (∀ b, b < fresh → heapGet h' b = heapGet h b) ∧
  heapBounded h' fresh' ∧ freshClosed h' fresh

/-- The same guarantees for a `deepcopyEntriesWith` call, plus: every
rewritten entry points into the newly allocated region. -/
def EntriesCallOK (h : Heap) (fresh : Nat) (h' : Heap) (fresh' : Nat)
    (es' : List (String × Nat)) : Prop :=
  fresh ≤ fresh' ∧
  (∀ b, b < fresh → heapGet h' b = heapGet h b) ∧
  heapBounded h' fresh' ∧ freshClosed h' fresh ∧
  (∀ q ∈ es', fresh ≤ q.2 ∧ q.2 < fresh')

/-! ## Helper lemmas -/

/-- Two suffixes of the same list are comparable, so a list with suffix `a`
cannot also have an incomparable suffix `b`. -/
theorem suffix_incomparable_not {s a b : List Char} (ha : a <:+ s)
    (h1 : ¬ a <:+ b) (h2 : ¬ b <:+ a) : ¬ b <:+ s := fun hb =>
  (List.suffix_or_suffix_of_suffix ha hb).elim (fun h => absurd h h1) (fun h => absurd h h2)

/-- Stripping a genuine suffix and appending it back restores the name. -/
theorem stripSuffix_append {name suffix : List Char} (h : suffix <:+ name) :
    stripSuffix name suffix ++ suffix = name := by
  obtain ⟨t, rfl⟩ := h
  simp [stripSuffix, List.length_append]

theorem lookupKey_insertKey {K V : Type} [DecidableEq K]
    (d : List (K × V)) (k k' : K) (v : V) :
    lookupKey (insertKey d k v) k' = if k = k' then some v else lookupKey d k' := by
  induction d with
  | nil => simp [insertKey, lookupKey]
  | cons kv rest ih =>
    by_cases hk : kv.1 = k
    · by_cases hkk : k = k'
      · simp [insertKey, lookupKey, hk, hkk]
      · have hne : kv.1 ≠ k' := by rw [hk]; exact hkk
        simp [insertKey, lookupKey, hk, hkk, hne]
    · by_cases hkv : kv.1 = k'
      · have hne : k ≠ k' := by rw [← hkv]; exact fun he => hk he.symm
        have hne2 : ¬ k' = k := fun he => hne he.symm
        simp [insertKey, lookupKey, hk, hkv, hne, hne2]
      · simp [insertKey, lookupKey, hk, hkv, ih]

/-! ## C1 -/

/-- C1: For every metric configuration whose name ends with one of the five
derived-metric suffixes, dependency resolution returns exactly one dependency,
under role "unexpected_condition", whose name is the input name with that
suffix stripped, whose domain kwargs equal the input's domain kwargs, and
whose value kwargs equal the input's value kwargs with the "result_format"
key removed; for a name matching no suffix and no partial-kind pattern,
resolution returns an empty mapping. -/
theorem gx_C1 {V : Type} (metric : MetricConfiguration V) :
    (∀ suffix ∈ derivedMetricSuffixes, suffix <:+ metric.metric_name →
      get_evaluation_dependencies metric =
        [("unexpected_condition",
          ⟨stripSuffix metric.metric_name suffix, metric.metric_domain_kwargs,
           metric.metric_value_kwargs.filter (fun kv => kv.1 ≠ "result_format")⟩)] ∧
      stripSuffix metric.metric_name suffix ++ suffix = metric.metric_name) ∧
    ((∀ suffix ∈ derivedMetricSuffixes, ¬ suffix <:+ metric.metric_name) →
     (∀ t ∈ MetricPartialFunctionTypes, ¬ t.chars <:+ metric.metric_name) →
     get_evaluation_dependencies metric = []) := by
  constructor
  · intro suffix hmem hsuf
    fin_cases hmem
    · have hnp : ¬ ∃ t ∈ MetricPartialFunctionTypes, t.chars <:+ metric.metric_name := by
        rintro ⟨t, ht, hts⟩
        fin_cases ht <;>
          exact absurd hts (suffix_incomparable_not hsuf (by decide) (by decide))
      refine ⟨?_, stripSuffix_append hsuf⟩
      simp only [get_evaluation_dependencies, mapMetric_get_evaluation_dependencies,
        if_neg hnp, if_pos hsuf]
      rfl
    · have h1 : ¬ unexpectedCountSuffix <:+ metric.metric_name :=
        suffix_incomparable_not hsuf (by decide) (by decide)
      have hnp : ¬ ∃ t ∈ MetricPartialFunctionTypes, t.chars <:+ metric.metric_name := by
        rintro ⟨t, ht, hts⟩
        fin_cases ht <;>
          exact absurd hts (suffix_incomparable_not hsuf (by decide) (by decide))
      refine ⟨?_, stripSuffix_append hsuf⟩
      simp only [get_evaluation_dependencies, mapMetric_get_evaluation_dependencies,
        if_neg hnp, if_neg h1, if_pos hsuf]
      rfl
    · have h1 : ¬ unexpectedCountSuffix <:+ metric.metric_name :=
        suffix_incomparable_not hsuf (by decide) (by decide)
      have h2 : ¬ unexpectedValuesSuffix <:+ metric.metric_name :=
        suffix_incomparable_not hsuf (by decide) (by decide)
      have hnp : ¬ ∃ t ∈ MetricPartialFunctionTypes, t.chars <:+ metric.metric_name := by
        rintro ⟨t, ht, hts⟩
        fin_cases ht <;>
          exact absurd hts (suffix_incomparable_not hsuf (by decide) (by decide))
      refine ⟨?_, stripSuffix_append hsuf⟩
      simp only [get_evaluation_dependencies, mapMetric_get_evaluation_dependencies,
        if_neg hnp, if_neg h1, if_neg h2, if_pos hsuf]
      rfl
    · have h1 : ¬ unexpectedCountSuffix <:+ metric.metric_name :=
        suffix_incomparable_not hsuf (by decide) (by decide)
      have h2 : ¬ unexpectedValuesSuffix <:+ metric.metric_name :=
        suffix_incomparable_not hsuf (by decide) (by decide)
      have h3 : ¬ unexpectedIndexListSuffix <:+ metric.metric_name :=
        suffix_incomparable_not hsuf (by decide) (by decide)
      have hnp : ¬ ∃ t ∈ MetricPartialFunctionTypes, t.chars <:+ metric.metric_name := by
        rintro ⟨t, ht, hts⟩
        fin_cases ht <;>
          exact absurd hts (suffix_incomparable_not hsuf (by decide) (by decide))
      refine ⟨?_, stripSuffix_append hsuf⟩
      simp only [get_evaluation_dependencies, mapMetric_get_evaluation_dependencies,
        if_neg hnp, if_neg h1, if_neg h2, if_neg h3, if_pos hsuf]
      rfl
    · have h1 : ¬ unexpectedCountSuffix <:+ metric.metric_name :=
        suffix_incomparable_not hsuf (by decide) (by decide)
      have h2 : ¬ unexpectedValuesSuffix <:+ metric.metric_name :=
        suffix_incomparable_not hsuf (by decide) (by decide)
      have h3 : ¬ unexpectedIndexListSuffix <:+ metric.metric_name :=
        suffix_incomparable_not hsuf (by decide) (by decide)
      have h4 : ¬ unexpectedValueCountsSuffix <:+ metric.metric_name :=
        suffix_incomparable_not hsuf (by decide) (by decide)
      refine ⟨?_, stripSuffix_append hsuf⟩
      have hnp : ¬ ∃ t ∈ MetricPartialFunctionTypes, t.chars <:+ metric.metric_name := by
        rintro ⟨t, ht, hts⟩
        fin_cases ht <;>
          exact absurd hts (suffix_incomparable_not hsuf (by decide) (by decide))
      simp only [get_evaluation_dependencies, mapMetric_get_evaluation_dependencies,
        if_neg hnp, if_neg h1, if_neg h2, if_neg h3, if_neg h4, if_pos hsuf]
      rfl
  · intro hno hnop
    have h1 := hno unexpectedCountSuffix (by decide)
    have h2 := hno unexpectedValuesSuffix (by decide)
    have h3 := hno unexpectedIndexListSuffix (by decide)
    have h4 := hno unexpectedValueCountsSuffix (by decide)
    have h5 := hno unexpectedRowsSuffix (by decide)
    have hnp : ¬ ∃ t ∈ MetricPartialFunctionTypes, t.chars <:+ metric.metric_name := by
      rintro ⟨t, ht, hts⟩; exact hnop t ht hts
    simp only [get_evaluation_dependencies, mapMetric_get_evaluation_dependencies,
      if_neg hnp, if_neg h1, if_neg h2, if_neg h3, if_neg h4, if_neg h5]
    rfl

/-- Witness for C1 at the spec's own example: resolving
`col.unique.unexpected_count` yields the single `"unexpected_condition"`
dependency `col.unique` with `result_format` dropped from the value kwargs. -/
theorem gx_C1_witness :
    get_evaluation_dependencies (V := Nat)
      ⟨"col.unique.unexpected_count".data, [("batch_id", 7)],
       [("result_format", 1), ("threshold", 5)]⟩ =
      [("unexpected_condition",
        ⟨"col.unique".data, [("batch_id", 7)], [("threshold", 5)]⟩)] := by
  have h := (gx_C1 (V := Nat)
      ⟨"col.unique.unexpected_count".data, [("batch_id", 7)],
       [("result_format", 1), ("threshold", 5)]⟩).1
      unexpectedCountSuffix (by decide) (by decide)
  rw [h.1]
  decide

/-! ## C3 -/

/-- `MapMetricProvider._get_evaluation_dependencies` returns either the empty
dict or a single `"unexpected_condition"` binding. -/
theorem mapMetric_deps_cases {V : Type} (metric : MetricConfiguration V) :
    mapMetric_get_evaluation_dependencies metric = [] ∨
    ∃ c, mapMetric_get_evaluation_dependencies metric = [("unexpected_condition", c)] := by
  simp only [mapMetric_get_evaluation_dependencies]
  split_ifs <;> first | exact .inl rfl | exact .inr ⟨_, rfl⟩

/-- C3 counterexample: the base registration hook
(`MetricProvider._register_metric_functions`, which is live code — its
`metric_fn_type == "value"` guard never passes, so every tagged method takes
the else branch) registers the BARE metric name of an `aggregate_fn`-tagged
method with declared function kind `MetricPartialFunctionTypes.AGGREGATE_FN`
— a partial kind — yet dependency resolution for a configuration with that
bare name contains NO `"metric_partial_fn"` dependency, because the resolver
keys the dependency on the metric NAME'S suffix, never on the declared
function kind; the `.aggregate_fn`-suffixed sibling registration is the one
that receives a self-dependency. -/
theorem gx_C3_counterexample :
    MetricProvider_register_metric_functions
        ⟨some "column.aggregate.sum".data, [⟨.sqlalchemy, .aggregate_fn, []⟩]⟩ =
      [⟨"column.aggregate.sum.aggregate_fn".data, .sqlalchemy,
        .fnKindMember .aggregate_fn⟩,
       ⟨"column.aggregate.sum".data, .sqlalchemy, .fnKindMember .aggregate_fn⟩] ∧
    MetricFnKind.aggregate_fn ∈ MetricPartialFunctionTypes ∧
    lookupKey (get_evaluation_dependencies (V := Nat)
        ⟨"column.aggregate.sum".data, [], []⟩) "metric_partial_fn" = none ∧
    lookupKey (get_evaluation_dependencies (V := Nat)
        ⟨"column.aggregate.sum.aggregate_fn".data, [], []⟩) "metric_partial_fn" =
      some ⟨"column.aggregate.sum.aggregate_fn".data, [], []⟩ := by
  exact ⟨by decide, by decide, by decide, by decide⟩

/-- C3 amended: dependency resolution adds the `"metric_partial_fn"`
self-dependency (same name, domain kwargs and value kwargs — the
configuration itself) exactly when the metric NAME ends with the string value
of one of the five partial function kinds, independently of any declared
function kind; otherwise no such dependency exists. -/
theorem gx_C3_amended {V : Type} (metric : MetricConfiguration V) :
    lookupKey (get_evaluation_dependencies metric) "metric_partial_fn" =
      if ∃ t ∈ MetricPartialFunctionTypes, t.chars <:+ metric.metric_name then
        some metric
      else none := by
  by_cases h : ∃ t ∈ MetricPartialFunctionTypes, t.chars <:+ metric.metric_name
  · rw [if_pos h]
    simp only [get_evaluation_dependencies, if_pos h]
    rcases mapMetric_deps_cases metric with hch | ⟨c, hch⟩ <;> rw [hch] <;> rfl
  · rw [if_neg h]
    simp only [get_evaluation_dependencies, if_neg h]
    rcases mapMetric_deps_cases metric with hch | ⟨c, hch⟩ <;> rw [hch] <;> rfl

/-! ## C2 -/

/-- C2 counterexample: with compute domain kwargs recorded on the condition
(`[]`) that differ from what the engine re-resolves
(`[("row_condition", "rc")]`), the Spark (distributed) `unexpected_values`
provider raises nothing and returns a result (computed over the condition's
recorded domain), and so do the Spark value-counts and rows providers — only
the SQL provider raises the assertion error.  This refutes the claim for the
distributed backend. -/
theorem gx_C2_counterexample :
    mismatchCondition.2 ≠ (mismatchEngine.get_compute_domain [("column", "a")]).2.1 ∧
    spark_column_map_values mismatchEngine [("column", "a")] ⟨"COMPLETE", 20⟩
      mismatchCondition = [some 5] ∧
    spark_column_map_value_counts mismatchEngine ⟨"COMPLETE", 20⟩
      mismatchCondition = [(some 5, 1)] ∧
    spark_column_map_rows mismatchEngine ⟨"COMPLETE", 20⟩
      mismatchCondition = [[("a", 5)]] ∧
    sqlalchemy_column_map_values mismatchEngine [("column", "a")] ⟨"COMPLETE", 20⟩
      mismatchCondition =
      .error "compute domain should be equivalent to the function domain" := by
  exact ⟨by decide, by decide, by decide, by decide, by decide⟩

/-- C2 amended: on the SQL backend the three derived-metric providers
(`unexpected_values`, `unexpected_value_counts`, `unexpected_rows`) raise the
assertion error and never compute a result whenever the condition's recorded
compute domain kwargs differ from the re-resolved ones; the Spark providers
perform no such check — they resolve the compute domain from the condition's
recorded domain kwargs instead of their own. -/
theorem gx_C2_amended (execution_engine : EngineModel)
    (metric_domain_kwargs : DomainKwargs) (result_format : ResultFormat)
    (unexpected : UnexpectedCondition)
    (hmismatch : unexpected.2 ≠ (execution_engine.get_compute_domain metric_domain_kwargs).2.1) :
    sqlalchemy_column_map_values execution_engine metric_domain_kwargs result_format
      unexpected = .error "compute domain should be equivalent to the function domain" ∧
    sqlalchemy_column_map_value_counts execution_engine metric_domain_kwargs
      unexpected = .error "compute domain should be equivalent to the function domain" ∧
    sqlalchemy_column_map_rows execution_engine metric_domain_kwargs result_format
      unexpected = .error "compute domain should be equivalent to the function domain" := by
  obtain ⟨condition, fn_domain_kwargs⟩ := unexpected
  refine ⟨?_, ?_, ?_⟩ <;>
    simp only [sqlalchemy_column_map_values, sqlalchemy_column_map_value_counts,
      sqlalchemy_column_map_rows, if_neg hmismatch]

/-- Witness for C2's amended theorem at the concrete mismatching input. -/
theorem gx_C2_witness :
    sqlalchemy_column_map_values mismatchEngine [("column", "a")] ⟨"BASIC", 3⟩
      mismatchCondition =
      .error "compute domain should be equivalent to the function domain" :=
  (gx_C2_amended mismatchEngine [("column", "a")] ⟨"BASIC", 3⟩ mismatchCondition
    (by decide)).1

/-! ## C4 -/

/-- C4: With no explicit `filter_column_isnull` anywhere (no call kwarg, no
class attribute), condition partials default the flag to `true` and function
partials to `false` — two different shape defaults.  On the column
`[1, None, 3]` with the authored condition "value > 2", the condition partial
drops the null row from the condition series (indices `[0, 2]`) and from the
derived count (`1`), while the function partial keeps all three rows. -/
theorem gx_C4 :
    resolveFilterColumnIsnull none none true = true ∧
    resolveFilterColumnIsnull none none false = false ∧
    pandas_column_condition_inner none none
        (fun v => match v with | some x => decide (2 < x) | none => false)
        [(0, some 1), (1, none), (2, some 3)] = [(0, true), (2, false)] ∧
    pandas_map_unexpected_count
        (pandas_column_condition_inner none none
          (fun v => match v with | some x => decide (2 < x) | none => false)
          [(0, some 1), (1, none), (2, some 3)]) = 1 ∧
    pandas_column_function_inner none none (fun v => v.getD 0 + 1)
        [(0, some 1), (1, none), (2, some 3)] = [(0, 2), (1, 1), (2, 4)] := by
  exact ⟨rfl, rfl, by decide, by decide, by decide⟩

/-! ## C5 -/

/-- C5: the code, evaluated where the claim says a histogram is returned.
With the unexpected values `[1, 1, 2]` (plain integers, so the direct
grouping succeeds with the histogram `[(1, 2), (2, 1)]`) and result format
COMPLETE, `_pandas_column_map_value_counts` does NOT return the histogram:
`if not value_counts:` evaluates `bool` of a pandas Series, which raises
`ValueError` unconditionally, so the provider raises even though both the
claim and the code's own intended `MetricError` path say a successful
grouping should return the histogram. -/
theorem gx_C5_evaluation :
    seriesValueCountsE [.pInt 1, .pInt 1, .pInt 2] =
      .ok [(.pInt 1, 2), (.pInt 2, 1)] ∧
    pandas_column_map_value_counts
        [(0, .pInt 1), (1, .pInt 1), (2, .pInt 2)] ⟨"COMPLETE", 20⟩
        [(0, true), (1, true), (2, true)] =
      .error "ValueError: The truth value of a Series is ambiguous. Use a.empty, a.bool(), a.item(), a.any() or a.all()." ∧
    pandasValueCountsClaimed
        [(0, .pInt 1), (1, .pInt 1), (2, .pInt 2)]
        [(0, true), (1, true), (2, true)] =
      .hist [(.pInt 1, 2), (.pInt 2, 1)] := by
  exact ⟨by decide, by decide, by decide⟩

/-! ## C6 -/

/-- C6: the code, evaluated where the claim says the first
`partial_unexpected_count` rows are returned.  On a two-column DataFrame with
all five rows unexpected and result format BASIC with
`partial_unexpected_count = 3`, the non-COMPLETE branch of
`_pandas_column_map_rows` evaluates `df[mask][3]` — column selection by the
integer label `3` — and raises `KeyError` instead of returning the first 3
rows (which the claimed behavior, shown alongside, produces); the COMPLETE
branch does return the full selected frame. -/
theorem gx_C6_evaluation :
    pandas_column_map_rows
        ⟨[.strL "a", .strL "b"],
         [(0, [some 1, some 10]), (1, [some 2, some 20]), (2, [some 3, some 30]),
          (3, [some 4, some 40]), (4, [some 5, some 50])]⟩
        ⟨"BASIC", 3⟩
        [(0, true), (1, true), (2, true), (3, true), (4, true)] =
      .error "KeyError" ∧
    pandasRowsClaimed
        ⟨[.strL "a", .strL "b"],
         [(0, [some 1, some 10]), (1, [some 2, some 20]), (2, [some 3, some 30]),
          (3, [some 4, some 40]), (4, [some 5, some 50])]⟩
        ⟨"BASIC", 3⟩
        [(0, true), (1, true), (2, true), (3, true), (4, true)] =
      .frame ⟨[.strL "a", .strL "b"],
              [(0, [some 1, some 10]), (1, [some 2, some 20]), (2, [some 3, some 30])]⟩ ∧
    pandas_column_map_rows
        ⟨[.strL "a", .strL "b"],
         [(0, [some 1, some 10]), (1, [some 2, some 20]), (2, [some 3, some 30]),
          (3, [some 4, some 40]), (4, [some 5, some 50])]⟩
        ⟨"COMPLETE", 3⟩
        [(0, true), (1, true), (2, true), (3, true), (4, true)] =
      .ok (.frame ⟨[.strL "a", .strL "b"],
           [(0, [some 1, some 10]), (1, [some 2, some 20]), (2, [some 3, some 30]),
            (3, [some 4, some 40]), (4, [some 5, some 50])]⟩) := by
  exact ⟨by decide, by decide, by decide⟩

/-! ## C7 -/

/-- Boolean-mask selection over index-aligned series built on consecutive
indices: selecting by the mask and projecting the values gives exactly the
values at the `true` positions, in order. -/
theorem maskSelect_zip_range' {α : Type} (s : Nat) (vals : List α) (bools : List Bool)
    (h : bools.length = vals.length) :
    (maskSelect ((List.range' s vals.length).zip vals)
        ((List.range' s bools.length).zip bools)).map (fun p => p.2) =
      unexpectedValuesSpec vals bools := by
  induction vals generalizing s bools with
  | nil =>
    cases bools with
    | nil => rfl
    | cons b bs => simp at h
  | cons v vs ih =>
    cases bools with
    | nil => simp at h
    | cons b bs =>
      have hlen : bs.length = vs.length := Nat.succ_injective h
      rw [List.length_cons, List.length_cons, List.range'_succ, List.range'_succ,
        List.zip_cons_cons, List.zip_cons_cons]
      have htail : ∀ p ∈ (List.range' (s + 1) vs.length).zip vs,
          maskAt ((s, b) :: (List.range' (s + 1) bs.length).zip bs) p.1 =
          maskAt ((List.range' (s + 1) bs.length).zip bs) p.1 := by
        intro p hp
        have hmem : p.1 ∈ List.range' (s + 1) vs.length :=
          (List.of_mem_zip (a := p.1) (b := p.2) hp).1
        have hge : s + 1 ≤ p.1 := (List.mem_range'_1.mp hmem).1
        have hne : ¬ s = p.1 := by omega
        simp [maskAt, lookupKey, hne]
      simp only [maskSelect] at ih ⊢
      have hhead : maskAt ((s, b) :: (List.range' (s + 1) bs.length).zip bs) s = b := by
        simp [maskAt, lookupKey]
      cases b with
      | true =>
        simp only [List.filter_cons, hhead, if_true, List.map_cons]
        rw [List.filter_congr htail, ih (s + 1) bs hlen]
        simp [unexpectedValuesSpec]
      | false =>
        simp only [List.filter_cons, hhead, Bool.false_eq_true, if_false]
        rw [List.filter_congr htail, ih (s + 1) bs hlen]
        simp [unexpectedValuesSpec]

/-- Mapping the values commutes with the spec-side selection. -/
theorem unexpectedValuesSpec_map {α β : Type} (f : α → β) (vals : List α)
    (bools : List Bool) :
    unexpectedValuesSpec (vals.map f) bools = (unexpectedValuesSpec vals bools).map f := by
  induction vals generalizing bools with
  | nil => cases bools <;> rfl
  | cons v vs ih =>
    cases bools with
    | nil => rfl
    | cons b bs =>
      cases b <;>
        simp only [unexpectedValuesSpec, List.map_cons, List.zip_cons_cons,
          List.filter_cons] at * <;>
        simp [ih]

/-- C7: On the in-memory backend, `unexpected_values` with result format
BASIC returns exactly the first `partial_unexpected_count` of the values on
which the condition is true, in row order, and with COMPLETE returns all of
them (for any column values, any aligned condition series and either state of
the null filter on an all-non-null column). -/
theorem gx_C7 (vals : List Int) (bools : List Bool) (k : Nat)
    (filter_column_isnull : Bool) (h : bools.length = vals.length) :
    pandas_column_map_values ((List.range vals.length).zip (vals.map some))
        filter_column_isnull ⟨"BASIC", k⟩ ((List.range bools.length).zip bools) =
      ((unexpectedValuesSpec vals bools).map some).take k ∧
    pandas_column_map_values ((List.range vals.length).zip (vals.map some))
        filter_column_isnull ⟨"COMPLETE", k⟩ ((List.range bools.length).zip bools) =
      (unexpectedValuesSpec vals bools).map some := by
  have hdata :
      (if filter_column_isnull then
        notnullFilter ((List.range vals.length).zip (vals.map some))
      else (List.range vals.length).zip (vals.map some)) =
      (List.range vals.length).zip (vals.map some) := by
    cases filter_column_isnull
    · rfl
    · simp only [if_true, notnullFilter]
      rw [List.filter_eq_self]
      intro p hp
      have := (List.of_mem_zip (a := p.1) (b := p.2) hp).2
      rcases List.mem_map.mp this with ⟨x, _, hx⟩
      simp [← hx]
  have hcore :
      (maskSelect ((List.range vals.length).zip (vals.map some))
        ((List.range bools.length).zip bools)).map (fun p => p.2) =
      (unexpectedValuesSpec vals bools).map some := by
    have := maskSelect_zip_range' 0 (vals.map some) bools
      (by simpa using h)
    rw [List.range_eq_range', List.range_eq_range']
    rw [show vals.length = (vals.map some).length by simp]
    rw [this, unexpectedValuesSpec_map]
  constructor
  · simp only [pandas_column_map_values, hdata]
    rw [if_neg (by decide)]
    rw [List.map_take, hcore]
  · simp only [pandas_column_map_values, hdata]
    rw [if_pos trivial, hcore]

/-- Witness for C7: 12 values, 10 of them unexpected; BASIC with
`partial_unexpected_count = 3` returns exactly the first 3 unexpected values
in row order, COMPLETE returns all 10. -/
theorem gx_C7_witness :
    pandas_column_map_values
        ((List.range 12).zip ([1, 2, 3, 4, 5, 6, 7, 8, 9, 10, 11, 12].map some))
        false ⟨"BASIC", 3⟩
        ((List.range 12).zip
          [true, true, false, true, true, false, true, true, true, true, true, true]) =
      [some 1, some 2, some 4] ∧
    pandas_column_map_values
        ((List.range 12).zip ([1, 2, 3, 4, 5, 6, 7, 8, 9, 10, 11, 12].map some))
        false ⟨"COMPLETE", 3⟩
        ((List.range 12).zip
          [true, true, false, true, true, false, true, true, true, true, true, true]) =
      [some 1, some 2, some 4, some 5, some 7, some 8, some 9, some 10, some 11, some 12] := by
  have h := gx_C7 [1, 2, 3, 4, 5, 6, 7, 8, 9, 10, 11, 12]
    [true, true, false, true, true, false, true, true, true, true, true, true] 3 false
    (by decide)
  exact ⟨h.1.trans (by decide), h.2.trans (by decide)⟩

/-! ## C8 -/

/-- The `MapMetricProvider` registration loop registers nothing and raises
nothing on any method list: both of its branch guards compare the Enum
member stored by the decorator against string literals and are always
false. -/
theorem registerMetricFunctionsAux_skips (cls : MapMetricCls) :
    ∀ ms : List CandidateMetricFn, registerMetricFunctionsAux cls ms = .ok [] := by
  intro ms
  induction ms with
  | nil => rfl
  | cons m rest ih =>
    have h1 : pyEq (.fnKindMember m.metric_fn_type) (.str "window_condition_fn".data) =
        false := rfl
    have h2 : pyEq (.fnKindMember m.metric_fn_type) (.str "map_condition_fn".data) =
        false := rfl
    have h3 : pyEq (.fnKindMember m.metric_fn_type) (.str "map_fn".data) = false := rfl
    simp only [registerMetricFunctionsAux, h1, h2, h3, Bool.or_self,
      Bool.false_eq_true, if_false]
    exact ih

/-- C8: the code, evaluated where the claim says a `ValueError` is raised.
The hook NEVER raises (and never registers): every class yields `.ok []` —
with neither base-name attribute via the early return at lines 738-741, and
otherwise because the guards at lines 754 and 934 compare the decorator's
Enum member against string literals (`pyEq ... = false` below), so a
condition-kind method without `condition_metric_name` — and a `map_fn`
method without `function_metric_name` — is silently skipped instead of
raising the (unreachable) missing-attribute `ValueError`. -/
theorem gx_C8_evaluation :
    (∀ cls : MapMetricCls, MapMetricProvider_register_metric_functions cls = .ok []) ∧
    pyEq (.fnKindMember .map_condition_fn) (.str "window_condition_fn".data) = false ∧
    pyEq (.fnKindMember .map_condition_fn) (.str "map_condition_fn".data) = false ∧
    pyEq (.fnKindMember .map_fn) (.str "map_fn".data) = false ∧
    MapMetricProvider_register_metric_functions
        ⟨none, some "column_values.len".data,
         [⟨.map_condition_fn, .sqlalchemy, .column⟩]⟩ = .ok [] ∧
    MapMetricProvider_register_metric_functions
        ⟨some "column_values.len".data, none,
         [⟨.map_fn, .sqlalchemy, .column⟩]⟩ = .ok [] ∧
    MapMetricProvider_register_metric_functions
        ⟨none, none, [⟨.map_condition_fn, .sqlalchemy, .column⟩]⟩ = .ok [] := by
  refine ⟨fun cls => ?_, rfl, rfl, rfl, by decide, by decide, by decide⟩
  by_cases hguard : cls.function_metric_name.isNone ∧ cls.condition_metric_name.isNone
  · simp only [MapMetricProvider_register_metric_functions, if_pos hguard]
  · simp only [MapMetricProvider_register_metric_functions, if_neg hguard]
    exact registerMetricFunctionsAux_skips cls cls.methods

/-! ## C9 -/

/-- After `insertKey` the key is among the dict's keys. -/
theorem insertKey_mem_keys {K V : Type} [DecidableEq K] (d : List (K × V)) (k : K) (v : V) :
    k ∈ (insertKey d k v).map (fun kv => kv.1) := by
  induction d with
  | nil => simp [insertKey]
  | cons kv rest ih =>
    by_cases h : kv.1 = k
    · simp [insertKey, if_pos h]
    · simp only [insertKey, if_neg h, List.map_cons, List.mem_cons]
      exact .inr ih

/-- C9: For the EvaluationParameterStore, after `set(k, v)` the call `get(k)`
returns exactly `v`, `has_key(k)` is true and `k` appears in `list_keys()`;
`set` on a different key leaves `get`/`has_key` of `k` unchanged; and on a
fresh store (where no key was ever set) `get` raises `KeyError`, `has_key` is
false and `list_keys()` is empty — together: a key never set yields `KeyError`
and `has_key = false`. -/
theorem gx_C9 (K V : Type) [DecidableEq K] :
    (∀ (s : EvaluationParameterStore K V) (k : K) (v : V),
      (s.set k v).get k = .ok v ∧ (s.set k v).has_key k = true ∧
      k ∈ (s.set k v).list_keys) ∧
    (∀ (s : EvaluationParameterStore K V) (k k' : K) (v : V), k' ≠ k →
      (s.set k' v).get k = s.get k ∧ (s.set k' v).has_key k = s.has_key k) ∧
    (∀ k : K, (EvaluationParameterStore.init K V).get k = .error "KeyError" ∧
      (EvaluationParameterStore.init K V).has_key k = false ∧
      (EvaluationParameterStore.init K V).list_keys = []) := by
  refine ⟨fun s k v => ⟨?_, ?_, ?_⟩, fun s k k' v hne => ⟨?_, ?_⟩, fun k => ⟨rfl, rfl, rfl⟩⟩
  · simp [EvaluationParameterStore.get, EvaluationParameterStore.set, lookupKey_insertKey]
  · simp [EvaluationParameterStore.has_key, EvaluationParameterStore.set, lookupKey_insertKey]
  · exact insertKey_mem_keys s.store k v
  · simp [EvaluationParameterStore.get, EvaluationParameterStore.set,
      lookupKey_insertKey, if_neg hne]
  · simp [EvaluationParameterStore.has_key, EvaluationParameterStore.set,
      lookupKey_insertKey, if_neg hne]

/-- Witness for C9 at concrete keys and values. -/
theorem gx_C9_witness :
    ((EvaluationParameterStore.init Nat Nat).set 1 10).get 1 = .ok 10 ∧
    ((EvaluationParameterStore.init Nat Nat).set 2 20).get 1 = .error "KeyError" := by
  refine ⟨((gx_C9 Nat Nat).1 _ 1 10).1, ?_⟩
  rw [((gx_C9 Nat Nat).2.1 (EvaluationParameterStore.init Nat Nat) 1 2 20 (by decide)).1]
  exact ((gx_C9 Nat Nat).2.2 1).1

/-! ## C10 -/

theorem heapGet_heapSet (h : Heap) (a : Nat) (node : PyNode) (b : Nat) :
    heapGet (heapSet h a node) b = if b = a then some node else heapGet h b := rfl

theorem heapGet_mem {h : Heap} {a : Nat} {node : PyNode}
    (hget : heapGet h a = some node) : (a, node) ∈ h := by
  induction h with
  | nil => simp [heapGet] at hget
  | cons p rest ih =>
    rcases p with ⟨b, n⟩
    by_cases hh : a = b
    · subst hh
      simp [heapGet] at hget
      subst hget
      exact .head _
    · simp only [heapGet, if_neg hh] at hget
      exact .tail _ (ih hget)

theorem heapBounded_get {h : Heap} {n a : Nat} {node : PyNode} (hb : heapBounded h n)
    (hget : heapGet h a = some node) :
    a < n ∧ ∀ c ∈ nodeChildren node, c < n := hb _ (heapGet_mem hget)

theorem heapGet_none_of_ge {h : Heap} {n a : Nat} (hb : heapBounded h n) (ha : n ≤ a) :
    heapGet h a = none := by
  cases hget : heapGet h a with
  | none => rfl
  | some node =>
    have := (heapBounded_get hb hget).1
    omega

theorem deepcopyEntries_spec (copy : Heap → Nat → Nat → Option (Heap × Nat × Nat))
    (hcopy : ∀ h fresh a h' fresh' r, heapBounded h fresh →
      copy h fresh a = some (h', fresh', r) → CopyCallOK h fresh h' fresh' r)
    (es : List (String × Nat)) :
    ∀ h fresh h' fresh' es', heapBounded h fresh →
      deepcopyEntriesWith copy h fresh es = some (h', fresh', es') →
      EntriesCallOK h fresh h' fresh' es' := by
  induction es with
  | nil =>
    intro h fresh h' fresh' es' hb hcall
    simp only [deepcopyEntriesWith, Option.some.injEq, Prod.mk.injEq] at hcall
    obtain ⟨rfl, rfl, rfl⟩ := hcall
    refine ⟨Nat.le_refl _, fun b _ => rfl, hb, ?_, by simp⟩
    intro a node hge hget
    rw [heapGet_none_of_ge hb hge] at hget
    exact absurd hget (by simp)
  | cons q rest ih =>
    intro h fresh h' fresh' es' hb hcall
    rcases q with ⟨k, a⟩
    simp only [deepcopyEntriesWith] at hcall
    cases h1 : copy h fresh a with
    | none => rw [h1] at hcall; exact absurd hcall (by simp)
    | some t1 =>
      rw [h1] at hcall
      rcases t1 with ⟨h1', f1, a1⟩
      have ok1 : CopyCallOK h fresh h1' f1 a1 := hcopy h fresh a h1' f1 a1 hb h1
      obtain ⟨hff1, hfa1, haf1, hlow1, hbnd1, hcl1⟩ := ok1
      cases h2 : deepcopyEntriesWith copy h1' f1 rest with
      | none => simp [h2] at hcall
      | some t2 =>
        rcases t2 with ⟨h2', f2, rest2⟩
        have ok2 : EntriesCallOK h1' f1 h2' f2 rest2 := ih h1' f1 h2' f2 rest2 hbnd1 h2
        obtain ⟨hff2, hlow2, hbnd2, hcl2, hmem2⟩ := ok2
        simp only [h2, Option.some.injEq, Prod.mk.injEq] at hcall
        obtain ⟨rfl, rfl, rfl⟩ := hcall
        refine ⟨by omega, ?_, hbnd2, ?_, ?_⟩
        · intro b hblt
          rw [hlow2 b (by omega), hlow1 b hblt]
        · intro x node hge hget
          by_cases hx : f1 ≤ x
          · intro c hc
            have := hcl2 x node hx hget c hc
            omega
          · have hget1 : heapGet h1' x = some node := by
              rw [← hlow2 x (by omega)]; exact hget
            exact hcl1 x node hge hget1
        · intro p hp
          rcases List.mem_cons.mp hp with rfl | hmem
          · exact ⟨hfa1, by omega⟩
          · have := hmem2 p hmem
            exact ⟨by omega, this.2⟩

theorem deepcopyAddr_spec :
    ∀ (fuel : Nat) (h : Heap) (fresh a : Nat) (h' : Heap) (fresh' r : Nat),
      heapBounded h fresh → deepcopyAddr fuel h fresh a = some (h', fresh', r) →
      CopyCallOK h fresh h' fresh' r := by
  intro fuel
  induction fuel with
  | zero =>
    intro h fresh a h' fresh' r hb hcall
    exact absurd hcall (by simp [deepcopyAddr])
  | succ fuel ih =>
    intro h fresh a h' fresh' r hb hcall
    simp only [deepcopyAddr] at hcall
    cases hget : heapGet h a with
    | none => rw [hget] at hcall; exact absurd hcall (by simp)
    | some node =>
      rw [hget] at hcall
      cases node with
      | prim s =>
        simp only [Option.some.injEq, Prod.mk.injEq] at hcall
        obtain ⟨rfl, rfl, rfl⟩ := hcall
        refine ⟨by omega, Nat.le_refl _, by omega, ?_, ?_, ?_⟩
        · intro b hblt
          rw [heapGet_heapSet, if_neg (by omega)]
        · intro p hp
          rcases List.mem_cons.mp hp with rfl | hmem
          · exact ⟨by omega, by simp [nodeChildren]⟩
          · have := hb p hmem
            exact ⟨by omega, fun c hc => by have := this.2 c hc; omega⟩
        · intro x nd hge hgetx
          rw [heapGet_heapSet] at hgetx
          by_cases hx : x = fresh
          · rw [if_pos hx, Option.some.injEq] at hgetx
            subst hgetx
            simp [nodeChildren]
          · rw [if_neg hx] at hgetx
            rw [heapGet_none_of_ge hb hge] at hgetx
            exact absurd hgetx (by simp)
      | dict entries =>
        cases hent : deepcopyEntriesWith (fun h2 f2 a2 => deepcopyAddr fuel h2 f2 a2)
            h fresh entries with
        | none => simp [hent] at hcall
        | some t =>
          rcases t with ⟨h2, f2, entries2⟩
          have okE : EntriesCallOK h fresh h2 f2 entries2 :=
            deepcopyEntries_spec (fun h2 f2 a2 => deepcopyAddr fuel h2 f2 a2)
              (fun h fresh a h' fresh' r hb hc => ih h fresh a h' fresh' r hb hc)
              entries h fresh h2 f2 entries2 hb hent
          obtain ⟨hff, hlow, hbnd, hcl, hmem⟩ := okE
          simp only [hent, Option.some.injEq, Prod.mk.injEq] at hcall
          obtain ⟨rfl, rfl, rfl⟩ := hcall
          refine ⟨by omega, hff, by omega, ?_, ?_, ?_⟩
          · intro b hblt
            rw [heapGet_heapSet, if_neg (by omega), hlow b hblt]
          · intro p hp
            rcases List.mem_cons.mp hp with rfl | hmemp
            · refine ⟨by omega, ?_⟩
              intro c hc
              simp only [nodeChildren, List.mem_map] at hc
              rcases hc with ⟨kv, hkv, rfl⟩
              have := hmem kv hkv
              omega
            · have := hbnd p hmemp
              exact ⟨by omega, fun c hc => by have := this.2 c hc; omega⟩
          · intro x nd hge hgetx
            rw [heapGet_heapSet] at hgetx
            by_cases hx : x = f2
            · rw [if_pos hx, Option.some.injEq] at hgetx
              subst hgetx
              intro c hc
              simp only [nodeChildren, List.mem_map] at hc
              rcases hc with ⟨kv, hkv, rfl⟩
              exact (hmem kv hkv).1
            · rw [if_neg hx] at hgetx
              exact hcl x nd hge hgetx

theorem reachList_lt {h : Heap} {n : Nat} (hb : heapBounded h n) :
    ∀ (fuel a : Nat), a < n → ∀ b ∈ reachList h fuel a, b < n := by
  intro fuel
  induction fuel with
  | zero =>
    intro a ha b hbm
    simp only [reachList, List.mem_singleton] at hbm
    omega
  | succ fuel ih =>
    intro a ha b hbm
    simp only [reachList] at hbm
    rcases List.mem_cons.mp hbm with rfl | hmem
    · exact ha
    · cases hget : heapGet h a with
      | none => rw [hget] at hmem; simp at hmem
      | some node =>
        rw [hget] at hmem
        cases node with
        | prim s => simp at hmem
        | dict es =>
          simp only [List.mem_flatMap] at hmem
          rcases hmem with ⟨kv, hkv, hb2⟩
          have hc : kv.2 < n := by
            have := (heapBounded_get hb hget).2 kv.2
            exact this (by simp only [nodeChildren, List.mem_map]; exact ⟨kv, hkv, rfl⟩)
          exact ih kv.2 hc b hb2

theorem reachList_ge {h : Heap} {n : Nat} (hc : freshClosed h n) :
    ∀ (fuel a : Nat), n ≤ a → ∀ b ∈ reachList h fuel a, n ≤ b := by
  intro fuel
  induction fuel with
  | zero =>
    intro a ha b hbm
    simp only [reachList, List.mem_singleton] at hbm
    omega
  | succ fuel ih =>
    intro a ha b hbm
    simp only [reachList] at hbm
    rcases List.mem_cons.mp hbm with rfl | hmem
    · exact ha
    · cases hget : heapGet h a with
      | none => rw [hget] at hmem; simp at hmem
      | some node =>
        rw [hget] at hmem
        cases node with
        | prim s => simp at hmem
        | dict es =>
          simp only [List.mem_flatMap] at hmem
          rcases hmem with ⟨kv, hkv, hb2⟩
          have hck : n ≤ kv.2 := by
            have := hc a (PyNode.dict es) ha hget kv.2
            exact this (by simp only [nodeChildren, List.mem_map]; exact ⟨kv, hkv, rfl⟩)
          exact ih kv.2 hck b hb2

theorem reachList_agree {h1 h2 : Heap} {n : Nat} (hb : heapBounded h2 n)
    (hagree : ∀ b, b < n → heapGet h1 b = heapGet h2 b) :
    ∀ (fuel a : Nat), a < n → reachList h1 fuel a = reachList h2 fuel a := by
  intro fuel
  induction fuel with
  | zero => intro a ha; rfl
  | succ fuel ih =>
    intro a ha
    simp only [reachList]
    rw [hagree a ha]
    cases hget : heapGet h2 a with
    | none => rfl
    | some node =>
      cases node with
      | prim s => rfl
      | dict es =>
        have hkids : ∀ kv ∈ es, kv.2 < n := by
          intro kv hkv
          exact (heapBounded_get hb hget).2 kv.2
            (by simp only [nodeChildren, List.mem_map]; exact ⟨kv, hkv, rfl⟩)
        have : ∀ (l : List (String × Nat)), (∀ kv ∈ l, kv.2 < n) →
            l.flatMap (fun kv => reachList h1 fuel kv.2) =
            l.flatMap (fun kv => reachList h2 fuel kv.2) := by
          intro l hl
          induction l with
          | nil => rfl
          | cons kv rest ihl =>
            simp only [List.flatMap_cons]
            rw [ih kv.2 (hl kv (List.mem_cons_self kv rest)),
              ihl (fun q hq => hl q (List.mem_cons_of_mem kv hq))]
        show (a :: es.flatMap fun kv => reachList h1 fuel kv.2) =
          (a :: es.flatMap fun kv => reachList h2 fuel kv.2)
        rw [this es hkids]

/-- C10: `BaseExecutionEnvironment.config` returns a deep copy: every address
reachable from the returned copy lies in the freshly allocated region, and
after mutating any such address (writing any node at any `m ≥ fresh`), the
internal configuration address and every address and value reachable from it
read exactly as before the copy.  Hypotheses: the heap is bounded by the
allocation frontier `fresh` and the stored configuration lives below it. -/
theorem gx_C10 (env : BaseExecutionEnvironment) (h : Heap) (fuel fresh : Nat)
    (h' : Heap) (fresh' r : Nat) (m : Nat) (node : PyNode)
    (hb : heapBounded h fresh)
    (ha : env.execution_environment_config < fresh)
    (hcopy : env.config h fuel fresh = some (h', fresh', r))
    (hm : fresh ≤ m) :
    (∀ fuel2, ∀ b ∈ reachList h' fuel2 r, fresh ≤ b) ∧
    (∀ fuel2, reachList (heapSet h' m node) fuel2 env.execution_environment_config =
      reachList h fuel2 env.execution_environment_config) ∧
    (∀ fuel2, ∀ b ∈ reachList h fuel2 env.execution_environment_config,
      heapGet (heapSet h' m node) b = heapGet h b) := by
  have hok := deepcopyAddr_spec fuel h fresh env.execution_environment_config h' fresh' r
    hb hcopy
  obtain ⟨hff, hfr, hrf, hlow, hbnd, hclosed⟩ := hok
  have hmut_agree : ∀ b, b < fresh → heapGet (heapSet h' m node) b = heapGet h b := by
    intro b hblt
    rw [heapGet_heapSet, if_neg (by omega), hlow b hblt]
  refine ⟨?_, ?_, ?_⟩
  · intro fuel2 b hb2
    exact reachList_ge hclosed fuel2 r hfr b hb2
  · intro fuel2
    exact reachList_agree hb hmut_agree fuel2 _ ha
  · intro fuel2 b hb2
    exact hmut_agree b (reachList_lt hb fuel2 _ ha b hb2)

/-- Witness for C10 on a concrete two-object configuration graph: the copy of
the config dict at address 0 lands at address 3 (its child at 2), every
address reachable from the copy is in the fresh region, and after mutating
the copied dict (emptying it at address 3) the original configuration at
address 0 and its child still read exactly as before. -/
theorem gx_C10_witness :
    (∀ b ∈ reachList
        ((3, PyNode.dict [("execution_engine", 2)]) :: (2, PyNode.prim "engine_cfg") ::
          [(0, PyNode.dict [("execution_engine", 1)]), (1, PyNode.prim "engine_cfg")]) 3 3,
      2 ≤ b) ∧
    reachList
        (heapSet
          ((3, PyNode.dict [("execution_engine", 2)]) :: (2, PyNode.prim "engine_cfg") ::
            [(0, PyNode.dict [("execution_engine", 1)]), (1, PyNode.prim "engine_cfg")])
          3 (PyNode.dict [])) 3 0 =
      reachList [(0, PyNode.dict [("execution_engine", 1)]), (1, PyNode.prim "engine_cfg")] 3 0 ∧
    (∀ b ∈ reachList
        [(0, PyNode.dict [("execution_engine", 1)]), (1, PyNode.prim "engine_cfg")] 3 0,
      heapGet
        (heapSet
          ((3, PyNode.dict [("execution_engine", 2)]) :: (2, PyNode.prim "engine_cfg") ::
            [(0, PyNode.dict [("execution_engine", 1)]), (1, PyNode.prim "engine_cfg")])
          3 (PyNode.dict [])) b =
      heapGet [(0, PyNode.dict [("execution_engine", 1)]), (1, PyNode.prim "engine_cfg")] b) := by
  have h := gx_C10 ⟨0⟩
    [(0, PyNode.dict [("execution_engine", 1)]), (1, PyNode.prim "engine_cfg")]
    5 2
    ((3, PyNode.dict [("execution_engine", 2)]) :: (2, PyNode.prim "engine_cfg") ::
      [(0, PyNode.dict [("execution_engine", 1)]), (1, PyNode.prim "engine_cfg")])
    4 3 3 (PyNode.dict [])
    (by decide) (by decide) (by decide) (by decide)
  exact ⟨h.1 3, h.2.1 3, h.2.2 3⟩
